import Mathlib

/-!
Shallow embedding of the wasm-game-engine repository (Rust) for verification.

Modelling conventions:
- `f32` values are modelled by exact rationals `ℚ`; the claims under study are
  about algorithm structure and exact sample inputs, not rounding.  Where the
  code relies on IEEE-754 infinities (`1.0 / 0.0` in `ray_vs_aabb`) an explicit
  extended-value type `FVal` with IEEE semantics for the operations used is
  introduced.  `Vec2::normalize` uses `sqrt`, so that one module is modelled
  over `ℝ` with `Real.sqrt`.
- `Entity = u32` is modelled as `Nat`, with the counter increment of
  `create_entity` taken modulo `2^32`: the release-mode wrapping semantics of
  the source's `+=` (debug builds panic on the same overflowing call).
- Rust `HashMap` is modelled as an association list with replace-on-insert
  semantics (`listInsert` / `listGet`); the claims do not depend on iteration
  order.
-/

universe u v

/-- Entity identifier, `src/src/core/ecs.rs`: `pub type Entity = u32`
(modelled as `Nat` with the producing increment reduced modulo `2^32`, see
header). -/
abbrev Entity := Nat

section ECS

variable {K : Type u} {V : Type v} [DecidableEq K]

/-- HashMap lookup, modelling `HashMap::get`: first entry whose key equals `k`. -/
def listGet (k : K) : List (K × V) → Option V
  | [] => none
  | (k₂, v) :: rest => if k₂ = k then some v else listGet k rest

/-- HashMap insertion, modelling `HashMap::insert`: replaces the entry for `k`
when present, otherwise adds a fresh entry. -/
def listInsert (k : K) (v : V) : List (K × V) → List (K × V)
  | [] => [(k, v)]
  | (k₂, v₂) :: rest =>
    if k₂ = k then (k, v) :: rest else (k₂, v₂) :: listInsert k v rest

/-- Number of stored entries under key `k`. -/
def countKey (k : K) (l : List (K × V)) : Nat :=
  (l.filter (fun p => decide (p.1 = k))).length

/-- The ECS world, `src/src/core/ecs.rs`, `struct World`.  `K` models
`std::any::TypeId` (the component kind) and `V` the type-erased component value
`Box<dyn Component>`; `downcast_ref::<T>` on an entry stored under
`TypeId::of::<T>` always succeeds, so the downcast is the identity here.  The
`systems` field is omitted: no claim mentions it and no modelled operation
touches it. -/
structure World (K : Type u) (V : Type v) where
  next_entity_id : Entity
  entities : List Entity
  components : List (Entity × List (K × V))

/-- Constructor `World::new`: allocation starts at identifier 1. -/
def World.new : World K V :=
  { next_entity_id := 1, entities := [], components := [] }

/-- Operation `World::create_entity`: returns the fresh identifier and the
updated world.  The source increments a `u32` counter (`self.next_entity_id +=
1`); the increment is modelled modulo `2^32`, the wrapping semantics of
release builds (debug builds panic on the overflowing call). -/
def World.create_entity (w : World K V) : Entity × World K V :=
  (w.next_entity_id,
   { next_entity_id := (w.next_entity_id + 1) % 2^32,
     entities := w.entities ++ [w.next_entity_id],
     components := listInsert w.next_entity_id [] w.components })

/-- Operation `World::add_component`: silently does nothing when the entity is
unknown (`components.get_mut(&entity)` is `None`). -/
def World.add_component (w : World K V) (e : Entity) (k : K) (c : V) : World K V :=
  match listGet e w.components with
  | none => w
  | some ec => { w with components := listInsert e (listInsert k c ec) w.components }

/-- Operation `World::get_component`: `None` when the entity is unknown or it
has no component of kind `k`. -/
def World.get_component (w : World K V) (e : Entity) (k : K) : Option V :=
  match listGet e w.components with
  | none => none
  | some ec => listGet k ec

/-- Whether the world knows entity `e` (it has a component table). -/
def World.knows (w : World K V) (e : Entity) : Bool :=
  (listGet e w.components).isSome

/-- A sequence of `n` successive `create_entity` calls; returns the list of
identifiers in call order together with the final world. -/
def World.createMany (w : World K V) : Nat → List Entity × World K V
  | 0 => ([], w)
  | n + 1 =>
    let p := w.create_entity
    let r := p.2.createMany n
    (p.1 :: r.1, r.2)

/-- Invariant used by claim C3: every stored per-entity component table has at
most one entry per kind (true of every world reachable by the modelled
operations). -/
def compsBounded (w : World K V) : Prop :=
  ∀ (e : Entity) (l : List (K × V)) (k : K),
    listGet e w.components = some l → countKey k l ≤ 1

end ECS

section Physics

/-- Physics world state, `src/src/physics/physics_world.rs`, `struct
PhysicsWorld`.  The `collision_detector` field is a fieldless struct whose
methods are modelled as plain functions below. -/
structure PhysicsWorld where
  gravity : ℚ
  time_step : ℚ

/-- Constructor `PhysicsWorld::new`: gravity -9.8, fixed step 1/60 s. -/
def PhysicsWorld.new : PhysicsWorld :=
  { gravity := -98/10, time_step := 1/60 }

/-- Constructor `PhysicsWorld::new_with_gravity`. -/
def PhysicsWorld.new_with_gravity (gravity : ℚ) : PhysicsWorld :=
  { gravity, time_step := 1/60 }

/-- While-loop of `PhysicsWorld::update` (`while accumulator >= self.time_step`),
written with explicit fuel so the recursion is structural; returns the number
of `physics_step` calls and the final accumulator.  The fuel passed by
`PhysicsWorld.update` is provably sufficient (`updateLoop_count`), so this is
exactly the loop's semantics whenever the loop terminates (`0 < step`). -/
def updateLoop (step : ℚ) : Nat → ℚ → Nat × ℚ
  | 0, acc => (0, acc)
  | fuel + 1, acc =>
    if step ≤ acc then
      let r := updateLoop step fuel (acc - step)
      (r.1 + 1, r.2)
    else (0, acc)

/-- Method `PhysicsWorld::update`: the accumulator is a LOCAL variable,
initialized to `0.0` and then incremented by `delta_time`, on every call; the
world's persistent fields are never written (`physics_step` is a placeholder
that mutates nothing).  Returns the (unchanged) world, the number of physics
steps performed during this call, and the accumulator value that the call
discards on return. -/
def PhysicsWorld.update (w : PhysicsWorld) (delta_time : ℚ) : PhysicsWorld × Nat × ℚ :=
  let accumulator : ℚ := 0 + delta_time
  (w, updateLoop w.time_step ((⌊accumulator / w.time_step⌋).toNat + 1) accumulator)

/-- A sequence of successive `update` calls on the same `PhysicsWorld`; returns
the final world and the total number of physics steps executed over the whole
sequence. -/
def PhysicsWorld.updateSeq (w : PhysicsWorld) : List ℚ → PhysicsWorld × Nat
  | [] => (w, 0)
  | d :: ds =>
    let r := w.update d
    let rest := r.1.updateSeq ds
    (rest.1, r.2.1 + rest.2)

/-- Rigid body, `src/src/physics/physics_world.rs`, `struct RigidBody`. -/
structure RigidBody where
  mass : ℚ
  velocity_x : ℚ
  velocity_y : ℚ
  acceleration_x : ℚ
  acceleration_y : ℚ
  is_static : Bool
  bounciness : ℚ
  friction : ℚ

/-- Constructor `RigidBody::new(mass)`. -/
def RigidBody.new (mass : ℚ) : RigidBody :=
  { mass, velocity_x := 0, velocity_y := 0, acceleration_x := 0,
    acceleration_y := 0, is_static := false, bounciness := 8/10,
    friction := 1/10 }

/-- Method `RigidBody::apply_force`: guarded by `!self.is_static && self.mass
> 0.0`, otherwise a no-op. -/
def RigidBody.apply_force (b : RigidBody) (force_x force_y : ℚ) : RigidBody :=
  if b.is_static = false ∧ 0 < b.mass then
    { b with acceleration_x := b.acceleration_x + force_x / b.mass,
             acceleration_y := b.acceleration_y + force_y / b.mass }
  else b

/-- Method `RigidBody::update`: semi-implicit Euler step with linear damping;
a no-op on static bodies; acceleration is reset to zero at the end. -/
def RigidBody.update (b : RigidBody) (dt : ℚ) : RigidBody :=
  if b.is_static = false then
    { b with
      velocity_x := (b.velocity_x + b.acceleration_x * dt) * (1 - b.friction * dt),
      velocity_y := (b.velocity_y + b.acceleration_y * dt) * (1 - b.friction * dt),
      acceleration_x := 0,
      acceleration_y := 0 }
  else b

end Physics

section Collision

/-- Axis-aligned bounding box, `src/src/physics/collision.rs`, `struct AABB`. -/
structure AABB where
  x : ℚ
  y : ℚ
  width : ℚ
  height : ℚ

/-- Accessor `AABB::min_x`. -/
def AABB.min_x (a : AABB) : ℚ := a.x

/-- Accessor `AABB::min_y`. -/
def AABB.min_y (a : AABB) : ℚ := a.y

/-- Accessor `AABB::max_x`. -/
def AABB.max_x (a : AABB) : ℚ := a.x + a.width

/-- Accessor `AABB::max_y`. -/
def AABB.max_y (a : AABB) : ℚ := a.y + a.height

/-- Accessor `AABB::center_x`. -/
def AABB.center_x (a : AABB) : ℚ := a.x + a.width / 2

/-- Accessor `AABB::center_y`. -/
def AABB.center_y (a : AABB) : ℚ := a.y + a.height / 2

/-- Method `AABB::contains_point`. -/
def AABB.contains_point (a : AABB) (px py : ℚ) : Bool :=
  decide (a.min_x ≤ px) && decide (px ≤ a.max_x) &&
  decide (a.min_y ≤ py) && decide (py ≤ a.max_y)

/-- Method `AABB::intersects`: a negated disjunction of four strict
separations. -/
def AABB.intersects (a other : AABB) : Bool :=
  !(decide (a.max_x < other.min_x) ||
    decide (a.min_x > other.max_x) ||
    decide (a.max_y < other.min_y) ||
    decide (a.min_y > other.max_y))

/-- Method `CollisionDetection::aabb_vs_aabb`: delegates to `AABB::intersects`.
`CollisionDetection` is a fieldless struct, so its methods are plain
functions here. -/
def aabb_vs_aabb (a b : AABB) : Bool := a.intersects b

/-- Method `CollisionDetection::point_in_aabb`: delegates to
`AABB::contains_point`. -/
def point_in_aabb (px py : ℚ) (aabb : AABB) : Bool := aabb.contains_point px py

/-- Collision response data, `struct CollisionInfo`. -/
structure CollisionInfo where
  penetration_x : ℚ
  penetration_y : ℚ
  normal_x : ℚ
  normal_y : ℚ
  contact_x : ℚ
  contact_y : ℚ

/-- Method `CollisionInfo::resolve_aabb_collision`: minimum-translation-vector
resolution.  Note the strict comparison `x_overlap < y_overlap`: equal overlaps
take the else branch (separation on the Y axis). -/
def CollisionInfo.resolve_aabb_collision (a b : AABB) : Option CollisionInfo :=
  if !(a.intersects b) then none
  else
    let x_overlap := min (a.max_x - b.min_x) (b.max_x - a.min_x)
    let y_overlap := min (a.max_y - b.min_y) (b.max_y - a.min_y)
    if x_overlap < y_overlap then
      let normal_x : ℚ := if a.center_x < b.center_x then -1 else 1
      some { penetration_x := x_overlap * normal_x, penetration_y := 0,
             normal_x, normal_y := 0,
             contact_x := if 0 < normal_x then a.max_x else a.min_x,
             contact_y := a.center_y }
    else
      let normal_y : ℚ := if a.center_y < b.center_y then -1 else 1
      some { penetration_x := 0, penetration_y := y_overlap * normal_y,
             normal_x := 0, normal_y,
             contact_x := a.center_x,
             contact_y := if 0 < normal_y then a.max_y else a.min_y }

/-- Extended f32 value: a finite rational, one of the two IEEE-754 infinities,
or NaN.  `ray_vs_aabb` divides by a direction component that may be zero, in
which case f32 produces an infinity, so plain `ℚ` (where `1/0 = 0`) would not
be faithful there. -/
inductive FVal where
  | fin (q : ℚ)
  | pinf
  | ninf
  | nan
deriving DecidableEq

/-- IEEE-754 multiplication on extended values (finite arithmetic is exact in
`ℚ`; zero times an infinity is NaN). -/
def FVal.mul : FVal → FVal → FVal
  | nan, _ => nan
  | fin _, nan => nan
  | pinf, nan => nan
  | ninf, nan => nan
  | fin a, fin b => fin (a * b)
  | fin a, pinf => if a = 0 then nan else if 0 < a then pinf else ninf
  | fin a, ninf => if a = 0 then nan else if 0 < a then ninf else pinf
  | pinf, fin b => if b = 0 then nan else if 0 < b then pinf else ninf
  | ninf, fin b => if b = 0 then nan else if 0 < b then ninf else pinf
  | pinf, pinf => pinf
  | pinf, ninf => ninf
  | ninf, pinf => ninf
  | ninf, ninf => pinf

/-- IEEE-754 comparison `<` on extended values: any comparison with NaN is
false. -/
def FVal.lt : FVal → FVal → Bool
  | nan, _ => false
  | fin _, nan => false
  | pinf, nan => false
  | ninf, nan => false
  | fin a, fin b => decide (a < b)
  | fin _, pinf => true
  | fin _, ninf => false
  | pinf, fin _ => false
  | ninf, fin _ => true
  | pinf, pinf => false
  | pinf, ninf => false
  | ninf, pinf => true
  | ninf, ninf => false

/-- Rust `f32::min`: if one operand is NaN the other is returned. -/
def FVal.fmin : FVal → FVal → FVal
  | nan, y => y
  | x, nan => x
  | x, y => if x.lt y then x else y

/-- Rust `f32::max`: if one operand is NaN the other is returned. -/
def FVal.fmax : FVal → FVal → FVal
  | nan, y => y
  | x, nan => x
  | x, y => if x.lt y then y else x

/-- Reciprocal `1.0 / d` of a finite f32 `d`: `+∞` when `d` is (positive)
zero.  The inputs of `ray_vs_aabb` are finite rationals, in which `0` models
IEEE `+0.0`. -/
def finv (d : ℚ) : FVal :=
  if d = 0 then FVal.pinf else FVal.fin (1 / d)

/-- Method `CollisionDetection::ray_vs_aabb`, the slab method with IEEE
arithmetic: per-axis entry/exit distances from the inverse direction, `None`
when `tmax < 0` (box behind the ray) or `tmin > tmax` (no overlap of the
slabs), otherwise the closest hit (`tmax` when `tmin < 0`, i.e. origin inside
the box). -/
def ray_vs_aabb (ray_x ray_y ray_dx ray_dy : ℚ) (aabb : AABB) : Option FVal :=
  let inv_dx := finv ray_dx
  let inv_dy := finv ray_dy
  let t1 := FVal.mul (FVal.fin (aabb.min_x - ray_x)) inv_dx
  let t2 := FVal.mul (FVal.fin (aabb.max_x - ray_x)) inv_dx
  let t3 := FVal.mul (FVal.fin (aabb.min_y - ray_y)) inv_dy
  let t4 := FVal.mul (FVal.fin (aabb.max_y - ray_y)) inv_dy
  let tmin := FVal.fmax (FVal.fmin t1 t2) (FVal.fmin t3 t4)
  let tmax := FVal.fmin (FVal.fmax t1 t2) (FVal.fmax t3 t4)
  if tmax.lt (FVal.fin 0) then none
  else if tmax.lt tmin then none
  else some (if tmin.lt (FVal.fin 0) then tmax else tmin)

/-- Modelled from the spec: the slab method as the spec words it for rays whose
direction components are nonzero — per-axis parametric entry/exit distances,
an intersection iff the largest entry is at most the smallest exit and the
exit is not behind the origin, returning the nearest non-negative hit distance
(the exit when the origin is inside the box).  Stated over plain `ℚ` for
comparison with the source-derived `ray_vs_aabb`. -/
def slabSpec (ray_x ray_y ray_dx ray_dy : ℚ) (aabb : AABB) : Option ℚ :=
  let tx1 := (aabb.min_x - ray_x) / ray_dx
  let tx2 := (aabb.max_x - ray_x) / ray_dx
  let ty1 := (aabb.min_y - ray_y) / ray_dy
  let ty2 := (aabb.max_y - ray_y) / ray_dy
  let entry := max (min tx1 tx2) (min ty1 ty2)
  let exit := min (max tx1 tx2) (max ty1 ty2)
  if exit < 0 then none
  else if entry > exit then none
  else some (if entry < 0 then exit else entry)

end Collision

section Vec2Math

/-- Two-dimensional vector, `src/src/math/vec2.rs`, `struct Vec2`.  Modelled
over `ℝ` because `Vec2::length` uses `sqrt`; the definitions in this section
are consequently noncomputable and concrete evaluations go through `Real.sqrt`
lemmas. -/
structure Vec2 where
  x : ℝ
  y : ℝ

/-- Constant `Vec2::ZERO`. -/
def Vec2.ZERO : Vec2 := { x := 0, y := 0 }

/-- Method `Vec2::length`. -/
noncomputable def Vec2.length (v : Vec2) : ℝ :=
  Real.sqrt (v.x * v.x + v.y * v.y)

/-- Method `Vec2::normalize`: guards the division with `len > 0.0` and returns
`Vec2::ZERO` for the zero vector. -/
noncomputable def Vec2.normalize (v : Vec2) : Vec2 :=
  if 0 < v.length then { x := v.x / v.length, y := v.y / v.length }
  else Vec2.ZERO

/-- Operator `Mul<f32> for Vec2` (scalar multiplication). -/
noncomputable def Vec2.mulScalar (v : Vec2) (scalar : ℝ) : Vec2 :=
  { x := v.x * scalar, y := v.y * scalar }

end Vec2Math

section HelperTheorems

variable {K : Type u} {V : Type v} [DecidableEq K]

theorem listGet_listInsert (k k₂ : K) (c : V) (l : List (K × V)) :
    listGet k₂ (listInsert k c l) = if k = k₂ then some c else listGet k₂ l := by
  induction l with
  | nil => by_cases h : k = k₂ <;> simp [listInsert, listGet, h]
  | cons p rest ih =>
    by_cases hp : p.1 = k
    · by_cases h : k = k₂
      · simp [listInsert, listGet, hp, h]
      · have hp₂ : p.1 ≠ k₂ := by rw [hp]; exact h
        simp [listInsert, listGet, hp, h, hp₂]
    · by_cases h : k = k₂
      · subst h
        simp [listInsert, listGet, hp, ih]
      · simp [listInsert, listGet, hp, h, ih]

theorem listGet_listInsert_self (k : K) (c : V) (l : List (K × V)) :
    listGet k (listInsert k c l) = some c := by
  rw [listGet_listInsert, if_pos rfl]

theorem countKey_cons (k : K) (p : K × V) (rest : List (K × V)) :
    countKey k (p :: rest) = (if p.1 = k then 1 else 0) + countKey k rest := by
  by_cases hp : p.1 = k <;> simp [countKey, hp, Nat.add_comm]

theorem countKey_listInsert_self (k : K) (c : V) (l : List (K × V))
    (h : countKey k l ≤ 1) : countKey k (listInsert k c l) = 1 := by
  induction l with
  | nil => simp [listInsert, countKey]
  | cons p rest ih =>
    by_cases hp : p.1 = k
    · rw [countKey_cons, if_pos hp] at h
      rw [listInsert, if_pos hp, countKey_cons, if_pos rfl]
      omega
    · rw [countKey_cons, if_neg hp] at h
      rw [listInsert, if_neg hp, countKey_cons, if_neg hp, ih (by omega)]

theorem knows_add_component (w : World K V) (e : Entity) (k : K) (c : V)
    (h : w.knows e = true) : (w.add_component e k c).knows e = true := by
  unfold World.knows at h ⊢
  unfold World.add_component
  cases hg : listGet e w.components with
  | none => simp [hg] at h
  | some ec => simp [hg, listGet_listInsert_self]

theorem get_component_add_component_self (w : World K V) (e : Entity) (k : K)
    (c : V) (h : w.knows e = true) :
    (w.add_component e k c).get_component e k = some c := by
  unfold World.knows at h
  unfold World.add_component World.get_component
  cases hg : listGet e w.components with
  | none => simp [hg] at h
  | some ec => simp [hg, listGet_listInsert_self]

theorem add_component_components (w : World K V) (e : Entity) (k : K) (c : V)
    (ec : List (K × V)) (hec : listGet e w.components = some ec) :
    (w.add_component e k c).components = listInsert e (listInsert k c ec) w.components := by
  unfold World.add_component
  rw [hec]

theorem compsBounded_new : compsBounded (World.new : World K V) := by
  intro e l k h
  simp [World.new, listGet] at h

theorem compsBounded_create_entity (w : World K V) (h : compsBounded w) :
    compsBounded w.create_entity.2 := by
  intro e l k hl
  unfold World.create_entity at hl
  simp only [listGet_listInsert] at hl
  by_cases he : w.next_entity_id = e
  · rw [if_pos he] at hl
    cases hl
    simp [countKey]
  · rw [if_neg he] at hl
    exact h e l k hl

theorem createMany_fst_mod (n : Nat) : ∀ (w : World K V), w.next_entity_id < 2^32 →
    (w.createMany n).1 = (List.range n).map (fun i => (w.next_entity_id + i) % 2^32) := by
  induction n with
  | zero => intro w _; rfl
  | succ m ih =>
    intro w h
    have hstep : w.create_entity.2.next_entity_id = (w.next_entity_id + 1) % 2^32 := rfl
    have hlt : w.create_entity.2.next_entity_id < 2^32 := by
      rw [hstep]
      exact Nat.mod_lt _ (by norm_num)
    have hids := ih w.create_entity.2 hlt
    rw [hstep] at hids
    have hcons : (w.createMany (m + 1)).1 = w.next_entity_id :: (w.create_entity.2.createMany m).1 := rfl
    rw [hcons, hids, List.range_succ_eq_map, List.map_cons, List.map_map]
    have hf : (fun i => ((w.next_entity_id + 1) % 2^32 + i) % 2^32) =
        ((fun i => (w.next_entity_id + i) % 2^32) ∘ Nat.succ) := by
      funext i
      show ((w.next_entity_id + 1) % 2^32 + i) % 2^32 = (w.next_entity_id + (i + 1)) % 2^32
      rw [Nat.mod_add_mod]
      congr 1
      omega
    rw [hf]
    congr 1
    show w.next_entity_id = (w.next_entity_id + 0) % 2^32
    rw [Nat.add_zero, Nat.mod_eq_of_lt h]

theorem createMany_fst (w : World K V) (n : Nat) (h : w.next_entity_id + n ≤ 2^32) :
    (w.createMany n).1 = List.range' w.next_entity_id n := by
  cases n with
  | zero => rfl
  | succ m =>
    have hlt : w.next_entity_id < 2^32 :=
      Nat.lt_of_lt_of_le (Nat.lt_add_of_pos_right (Nat.succ_pos m)) h
    rw [createMany_fst_mod (m + 1) w hlt, List.range'_eq_map_range]
    apply List.map_eq_map_iff.mpr
    intro i hi
    have hi₂ := List.mem_range.mp hi
    exact Nat.mod_eq_of_lt (Nat.lt_of_lt_of_le (Nat.add_lt_add_left hi₂ _) h)

end HelperTheorems

theorem updateLoop_count (step : ℚ) (hstep : 0 < step) :
    ∀ (fuel : Nat) (acc : ℚ), ⌊acc / step⌋ < fuel →
      updateLoop step fuel acc = ((⌊acc / step⌋).toNat, acc - (⌊acc / step⌋).toNat * step) := by
  intro fuel
  induction fuel with
  | zero =>
    intro acc h
    have hneg : ⌊acc / step⌋ < 0 := by exact_mod_cast h
    rw [updateLoop, Int.toNat_of_nonpos (le_of_lt hneg)]
    simp
  | succ n ih =>
    intro acc h
    by_cases hc : step ≤ acc
    · have h1 : (1 : ℚ) ≤ acc / step := (one_le_div hstep).mpr hc
      have hfl : 1 ≤ ⌊acc / step⌋ := by
        exact_mod_cast Int.le_floor.mpr (by exact_mod_cast h1)
      have hsub : (acc - step) / step = acc / step - 1 := by
        field_simp
      have hfs : ⌊(acc - step) / step⌋ = ⌊acc / step⌋ - 1 := by
        rw [hsub]
        exact_mod_cast Int.floor_sub_int (acc / step) 1
      have hlt : ⌊(acc - step) / step⌋ < n := by omega
      rw [updateLoop, if_pos hc, ih (acc - step) hlt]
      have htn : ((⌊acc / step⌋ - 1).toNat : ℤ) = ⌊acc / step⌋ - 1 := by omega
      simp only [hfs, Prod.mk.injEq]
      refine ⟨by omega, ?_⟩
      have hc₁ : ((⌊acc / step⌋ - 1).toNat : ℚ) = ((⌊acc / step⌋ : ℤ) : ℚ) - 1 := by
        exact_mod_cast htn
      have hc₂ : (((⌊acc / step⌋).toNat : ℤ) : ℚ) = ((⌊acc / step⌋ : ℤ) : ℚ) := by
        exact_mod_cast Int.toNat_of_nonneg (by omega)
      push_cast at hc₂ ⊢
      rw [hc₁, hc₂]
      ring
    · have hlt₁ : acc / step < 1 := by
        rw [div_lt_one hstep]
        exact lt_of_not_le hc
      have hfl : ⌊acc / step⌋ ≤ 0 := by
        have h₁ : ⌊acc / step⌋ < 1 := Int.floor_lt.mpr (by exact_mod_cast hlt₁)
        omega
      rw [updateLoop, if_neg hc, Int.toNat_of_nonpos hfl]
      simp

theorem FVal.mul_fin (a b : ℚ) : FVal.mul (FVal.fin a) (FVal.fin b) = FVal.fin (a * b) := rfl

theorem FVal.fmin_fin (a b : ℚ) :
    FVal.fmin (FVal.fin a) (FVal.fin b) = FVal.fin (min a b) := by
  by_cases h : a < b
  · simp [FVal.fmin, FVal.lt, h, min_eq_left (le_of_lt h)]
  · simp [FVal.fmin, FVal.lt, h, min_eq_right (le_of_not_lt h)]

theorem FVal.fmax_fin (a b : ℚ) :
    FVal.fmax (FVal.fin a) (FVal.fin b) = FVal.fin (max a b) := by
  by_cases h : a < b
  · simp [FVal.fmax, FVal.lt, h, max_eq_right (le_of_lt h)]
  · simp [FVal.fmax, FVal.lt, h, max_eq_left (le_of_not_lt h)]

theorem FVal.lt_fin (a b : ℚ) : FVal.lt (FVal.fin a) (FVal.fin b) = decide (a < b) := rfl


/-- C1: the claim says `PhysicsWorld.update` carries residual time across
successive calls, so that the number of physics steps over a sequence of calls
equals the whole number of fixed steps in the total elapsed time.  The code
does not: the accumulator is a local variable re-initialized to zero on every
call, so each call performs `⌊delta / step⌋` steps and its residual is
discarded.  At the failing input — two successive `update(0.01)` calls with
step 1/60 — the code performs 0 steps while the claim requires
`⌊0.02 / (1/60)⌋ = 1`; the first conjunct shows a call writes no persistent
state at all (nothing is carried), and the last shows the claim's own
three-call example performs its 3 steps only per-call, not via a carried
residual. -/
theorem c1_accumulator_not_persisted :
    (PhysicsWorld.new.update (1/100)).1 = PhysicsWorld.new ∧
    (PhysicsWorld.new.updateSeq [1/100, 1/100]).2 = 0 ∧
    ⌊((1:ℚ)/100 + 1/100) / PhysicsWorld.new.time_step⌋ = 1 ∧
    (PhysicsWorld.new.updateSeq [2/100, 2/100, 2/100]).2 = 3 ∧
    (PhysicsWorld.new.update (2/100)).2.2 = 1/300 := by
  refine ⟨rfl, ?_, ?_, ?_, ?_⟩
  · norm_num [PhysicsWorld.updateSeq, PhysicsWorld.update, PhysicsWorld.new, updateLoop]
  · norm_num [PhysicsWorld.new]
  · norm_num [PhysicsWorld.updateSeq, PhysicsWorld.update, PhysicsWorld.new, updateLoop]
  · norm_num [PhysicsWorld.update, PhysicsWorld.new, updateLoop]

/-- C8: a static rigid body is immune to `apply_force` and `update` (all
fields unchanged), while the claim's concrete non-static body — mass 2, zero
initial velocity, friction 0 — after `apply_force(4,0)` and `update(1)` has
velocity (2,0) and its acceleration reset to (0,0). -/
theorem c8_static_immune_dynamic_integrates (b : RigidBody) (fx fy dt : ℚ)
    (h : b.is_static = true) :
    (b.apply_force fx fy = b ∧ b.update dt = b) ∧
    (({ RigidBody.new 2 with friction := 0 }.apply_force 4 0).update 1 =
      RigidBody.mk 2 2 0 0 0 false (8/10) 0) := by
  refine ⟨⟨?_, ?_⟩, ?_⟩
  · simp [RigidBody.apply_force, h]
  · simp [RigidBody.update, h]
  · norm_num [RigidBody.new, RigidBody.apply_force, RigidBody.update]

/-- Witness for C8 at a concrete static body. -/
theorem c8_static_immune_dynamic_integrates_witness :
    ({ RigidBody.new 2 with is_static := true } : RigidBody).is_static = true ∧
    (({ RigidBody.new 2 with is_static := true } : RigidBody).apply_force 4 0 =
        { RigidBody.new 2 with is_static := true } ∧
      ({ RigidBody.new 2 with is_static := true } : RigidBody).update 1 =
        { RigidBody.new 2 with is_static := true }) ∧
    (({ RigidBody.new 2 with friction := 0 }.apply_force 4 0).update 1 =
      RigidBody.mk 2 2 0 0 0 false (8/10) 0) :=
  ⟨rfl, c8_static_immune_dynamic_integrates _ 4 0 1 rfl⟩

/-- C10: `apply_force` is also a silent no-op on a non-static body whose mass
is zero or negative — the guard `!is_static && mass > 0.0` protects the
division by `mass`. -/
theorem c10_apply_force_nonpositive_mass_noop (b : RigidBody) (fx fy : ℚ)
    (h₁ : b.is_static = false) (h₂ : b.mass ≤ 0) :
    b.apply_force fx fy = b := by
  unfold RigidBody.apply_force
  rw [if_neg]
  rintro ⟨-, hm⟩
  exact absurd hm (not_lt.mpr h₂)

/-- Witness for C10 at a mass-zero body. -/
theorem c10_apply_force_nonpositive_mass_noop_witness :
    (RigidBody.new 0).is_static = false ∧ (RigidBody.new 0).mass ≤ 0 ∧
    (RigidBody.new 0).apply_force 4 0 = RigidBody.new 0 :=
  ⟨rfl, le_refl 0, c10_apply_force_nonpositive_mass_noop _ 4 0 rfl (le_refl 0)⟩

section ECSClaims

variable {K : Type u} {V : Type v} [DecidableEq K]

/-- C3: for a known entity `e`, `add_component e k v` followed by
`get_component e k` returns `v`; a second `add_component e k v₂` replaces the
value (`get_component` then returns `v₂`); and (under the reachable-world
invariant `compsBounded`) the entity's table holds exactly one entry of kind
`k` after each add — never two. -/
theorem c3_add_component_replaces (w : World K V) (e : Entity) (k : K)
    (v v₂ : V) (hk : w.knows e = true) (hwf : compsBounded w) :
    (w.add_component e k v).get_component e k = some v ∧
    ((w.add_component e k v).add_component e k v₂).get_component e k = some v₂ ∧
    (∀ l, listGet e (w.add_component e k v).components = some l →
      countKey k l = 1) ∧
    (∀ l, listGet e ((w.add_component e k v).add_component e k v₂).components = some l →
      countKey k l = 1) := by
  have hk₂ := hk
  unfold World.knows at hk₂
  obtain ⟨ec, hec⟩ := Option.isSome_iff_exists.mp hk₂
  have hC₁ := add_component_components w e k v ec hec
  have hT₁ : listGet e (w.add_component e k v).components = some (listInsert k v ec) := by
    rw [hC₁]
    exact listGet_listInsert_self _ _ _
  have hC₂ := add_component_components (w.add_component e k v) e k v₂ (listInsert k v ec) hT₁
  have hT₂ : listGet e ((w.add_component e k v).add_component e k v₂).components =
      some (listInsert k v₂ (listInsert k v ec)) := by
    rw [hC₂]
    exact listGet_listInsert_self _ _ _
  have hcount : countKey k (listInsert k v ec) = 1 :=
    countKey_listInsert_self k v ec (hwf e ec k hec)
  refine ⟨get_component_add_component_self w e k v hk, ?_, ?_, ?_⟩
  · exact get_component_add_component_self _ e k v₂ (knows_add_component w e k v hk)
  · intro l hl
    rw [hT₁] at hl
    obtain rfl := (Option.some.inj hl).symm
    exact hcount
  · intro l hl
    rw [hT₂] at hl
    obtain rfl := (Option.some.inj hl).symm
    exact countKey_listInsert_self k v₂ _ (le_of_eq hcount)

end ECSClaims

/-- Witness for C3 in the world with one created entity, over kind and value
type ℕ. -/
theorem c3_add_component_replaces_witness :
    ((World.new : World Nat Nat).create_entity.2.knows 1 = true ∧
      compsBounded (World.new : World Nat Nat).create_entity.2) ∧
    ((World.new : World Nat Nat).create_entity.2.add_component 1 7 42).get_component 1 7 = some 42 ∧
    (((World.new : World Nat Nat).create_entity.2.add_component 1 7 42).add_component 1 7 43).get_component 1 7 = some 43 ∧
    (∀ l, listGet 1 ((World.new : World Nat Nat).create_entity.2.add_component 1 7 42).components = some l →
      countKey 7 l = 1) ∧
    (∀ l, listGet 1 (((World.new : World Nat Nat).create_entity.2.add_component 1 7 42).add_component 1 7 43).components = some l →
      countKey 7 l = 1) := by
  have hk : (World.new : World Nat Nat).create_entity.2.knows 1 = true := by
    simp [World.new, World.create_entity, World.knows, listInsert, listGet]
  have hwf : compsBounded (World.new : World Nat Nat).create_entity.2 :=
    compsBounded_create_entity _ compsBounded_new
  exact ⟨⟨hk, hwf⟩, c3_add_component_replaces _ 1 7 42 43 hk hwf⟩

section ECSClaims2

variable {K : Type u} {V : Type v} [DecidableEq K]

/-- C4 (amended): any sequence of `n` `create_entity` calls on a world whose
allocation counter is at least 1 (true from `World::new`, whose counter is
exactly 1) and whose `u32` counter does not overflow during the sequence
(`next_entity_id + n ≤ 2^32`) returns strictly increasing, pairwise-distinct
identifiers — as a set they have size `n` — and never returns identifier 0.
Without the no-overflow bound the property fails: the counter wraps
(`c4_wraparound_counterexample`). -/
theorem c4_entity_ids_strictly_increasing (w : World K V) (n : Nat)
    (h : 1 ≤ w.next_entity_id) (hno : w.next_entity_id + n ≤ 2^32) :
    List.Pairwise (· < ·) (w.createMany n).1 ∧
    (w.createMany n).1.Nodup ∧
    (w.createMany n).1.length = n ∧
    (w.createMany n).1.toFinset.card = n ∧
    0 ∉ (w.createMany n).1 ∧
    (World.new : World K V).next_entity_id = 1 := by
  have hfst := createMany_fst w n hno
  have hpw : List.Pairwise (· < ·) (w.createMany n).1 := by
    rw [hfst]
    exact List.pairwise_lt_range' _ _ 1 (Nat.le_refl 1)
  have hnd : (w.createMany n).1.Nodup := hpw.imp Nat.ne_of_lt
  have hlen : (w.createMany n).1.length = n := by
    rw [hfst]
    exact List.length_range' _ _ _
  refine ⟨hpw, hnd, hlen, ?_, ?_, rfl⟩
  · rw [List.toFinset_card_of_nodup hnd, hlen]
  · rw [hfst]
    intro hmem
    have h₀ := (List.mem_range'_1.mp hmem).1
    exact absurd (Nat.lt_of_lt_of_le h h₀) (Nat.lt_irrefl 0)

end ECSClaims2

/-- C4 counterexample: the original claim quantifies over every sequence of
`create_entity` calls on a World, but the `u32` counter wraps.  On the world
whose counter has reached `2^32 - 1` (as it does after `2^32 - 2` creations
from `World::new`), two further calls return the identifiers
`[2^32 - 1, 0]`: identifier 0 IS returned and the sequence is NOT strictly
increasing.  The same wrap is reached from the fresh world: among `2^32`
creations from `World::new`, identifier 0 is returned. -/
theorem c4_wraparound_counterexample :
    ((World.mk (2^32 - 1) [] [] : World Nat Nat).createMany 2).1 = [2^32 - 1, 0] ∧
    0 ∈ ((World.mk (2^32 - 1) [] [] : World Nat Nat).createMany 2).1 ∧
    ¬ List.Pairwise (· < ·) ((World.mk (2^32 - 1) [] [] : World Nat Nat).createMany 2).1 ∧
    0 ∈ ((World.new : World Nat Nat).createMany (2^32)).1 := by
  have htrace : ((World.mk (2^32 - 1) [] [] : World Nat Nat).createMany 2).1 = [2^32 - 1, 0] := by
    norm_num [World.createMany, World.create_entity]
  refine ⟨htrace, ?_, ?_, ?_⟩
  · rw [htrace]
    simp
  · rw [htrace]
    intro hp
    have h₀ := List.rel_of_pairwise_cons hp (List.mem_cons_self _ _)
    exact absurd h₀ (Nat.not_lt_zero _)
  · rw [createMany_fst_mod (2^32) (World.new : World Nat Nat) (by norm_num [World.new])]
    refine List.mem_map.mpr ⟨2^32 - 1, List.mem_range.mpr (by norm_num), ?_⟩
    norm_num [World.new]

/-- Witness for C4: three creations from a fresh world over ℕ kinds/values
(the counter 1 is positive and 1 + 3 does not overflow). -/
theorem c4_entity_ids_strictly_increasing_witness :
    (1 ≤ (World.new : World Nat Nat).next_entity_id ∧
      (World.new : World Nat Nat).next_entity_id + 3 ≤ 2^32) ∧
    (List.Pairwise (· < ·) ((World.new : World Nat Nat).createMany 3).1 ∧
      ((World.new : World Nat Nat).createMany 3).1.Nodup ∧
      ((World.new : World Nat Nat).createMany 3).1.length = 3 ∧
      ((World.new : World Nat Nat).createMany 3).1.toFinset.card = 3 ∧
      0 ∉ ((World.new : World Nat Nat).createMany 3).1 ∧
      (World.new : World Nat Nat).next_entity_id = 1) :=
  ⟨⟨Nat.le_refl 1, by norm_num [World.new]⟩,
    c4_entity_ids_strictly_increasing _ 3 (Nat.le_refl 1) (by norm_num [World.new])⟩

section ECSClaims3

variable {K : Type u} {V : Type v} [DecidableEq K]

/-- C5: `get_component` returns `none` on an unknown entity and on a known
entity lacking the requested kind (never a default, never a panic — the model
is total), and `add_component` on an unknown entity returns the world
unchanged. -/
theorem c5_absent_component_handling (w : World K V) (e : Entity) (k : K)
    (c : V) (h : w.knows e = false) :
    (w.get_component e k = none ∧ w.add_component e k c = w) ∧
    ∀ (w₂ : World K V) (e₂ : Entity) (k₂ : K) (l : List (K × V)),
      listGet e₂ w₂.components = some l → listGet k₂ l = none →
      w₂.get_component e₂ k₂ = none := by
  have hnone : listGet e w.components = none := by
    unfold World.knows at h
    exact Option.not_isSome_iff_eq_none.mp (by simp [h])
  refine ⟨⟨?_, ?_⟩, ?_⟩
  · unfold World.get_component
    rw [hnone]
  · unfold World.add_component
    rw [hnone]
  · intro w₂ e₂ k₂ l hl hk₂
    unfold World.get_component
    rw [hl]
    exact hk₂

end ECSClaims3

/-- Witness for C5: entity 5 in a fresh world over ℕ kinds/values is unknown. -/
theorem c5_absent_component_handling_witness :
    (World.new : World Nat Nat).knows 5 = false ∧
    (((World.new : World Nat Nat).get_component 5 7 = none ∧
        (World.new : World Nat Nat).add_component 5 7 42 = World.new) ∧
      ∀ (w₂ : World Nat Nat) (e₂ : Entity) (k₂ : Nat) (l : List (Nat × Nat)),
        listGet e₂ w₂.components = some l → listGet k₂ l = none →
        w₂.get_component e₂ k₂ = none) :=
  ⟨rfl, c5_absent_component_handling _ 5 7 42 rfl⟩

/-- C2 counterexample: for `AABB(0,0,2,2)` and `AABB(1,1,2,2)` the x- and
y-overlaps are equal (both 1), yet `resolve_aabb_collision` separates on the
Y axis (`normal_x = 0`, `normal_y = -1`), refuting the claim that ties favor
the X axis — the strict comparison `x_overlap < y_overlap` sends ties to the
else (Y) branch. -/
theorem c2_tie_favors_y_counterexample :
    (min ((AABB.mk 0 0 2 2).max_x - (AABB.mk 1 1 2 2).min_x)
        ((AABB.mk 1 1 2 2).max_x - (AABB.mk 0 0 2 2).min_x) =
      min ((AABB.mk 0 0 2 2).max_y - (AABB.mk 1 1 2 2).min_y)
        ((AABB.mk 1 1 2 2).max_y - (AABB.mk 0 0 2 2).min_y)) ∧
    CollisionInfo.resolve_aabb_collision (AABB.mk 0 0 2 2) (AABB.mk 1 1 2 2) =
      some (CollisionInfo.mk 0 (-1) 0 (-1) 1 0) := by
  constructor
  · norm_num [AABB.min_x, AABB.min_y, AABB.max_x, AABB.max_y]
  · norm_num [CollisionInfo.resolve_aabb_collision, AABB.intersects, AABB.min_x,
      AABB.min_y, AABB.max_x, AABB.max_y, AABB.center_x, AABB.center_y]

/-- C2 (amended): for intersecting AABBs, `resolve_aabb_collision` separates
along the axis of strictly smaller overlap, and ties (equal overlaps) go to
the Y axis; the normal on the chosen axis points from `a` away from `b`'s
center (`-1` when `a`'s center is strictly smaller, ties resolving to `+1`),
and the penetration on the chosen axis is the overlap times the normal, the
other component being zero. -/
theorem c2_resolve_min_overlap_axis (a b : AABB) (h : a.intersects b = true) :
    ∃ info, CollisionInfo.resolve_aabb_collision a b = some info ∧
      (min (a.max_x - b.min_x) (b.max_x - a.min_x) <
          min (a.max_y - b.min_y) (b.max_y - a.min_y) →
        info.normal_x = (if a.center_x < b.center_x then (-1 : ℚ) else 1) ∧
        info.normal_y = 0 ∧
        info.penetration_x = min (a.max_x - b.min_x) (b.max_x - a.min_x) * info.normal_x ∧
        info.penetration_y = 0) ∧
      (min (a.max_y - b.min_y) (b.max_y - a.min_y) ≤
          min (a.max_x - b.min_x) (b.max_x - a.min_x) →
        info.normal_y = (if a.center_y < b.center_y then (-1 : ℚ) else 1) ∧
        info.normal_x = 0 ∧
        info.penetration_y = min (a.max_y - b.min_y) (b.max_y - a.min_y) * info.normal_y ∧
        info.penetration_x = 0) := by
  unfold CollisionInfo.resolve_aabb_collision
  rw [h]
  simp only [Bool.not_true, Bool.false_eq_true, if_false]
  split
  next hxy =>
    exact ⟨_, rfl, fun _ => ⟨rfl, rfl, rfl, rfl⟩, fun hle => absurd hxy (not_lt.mpr hle)⟩
  next hxy =>
    exact ⟨_, rfl, fun hlt => absurd hlt hxy, fun _ => ⟨rfl, rfl, rfl, rfl⟩⟩

/-- Witness for the amended C2 at two overlapping boxes whose x-overlap is the
smaller one. -/
theorem c2_resolve_min_overlap_axis_witness :
    (AABB.mk 0 0 2 2).intersects (AABB.mk 1 0 2 2) = true ∧
    ∃ info, CollisionInfo.resolve_aabb_collision (AABB.mk 0 0 2 2) (AABB.mk 1 0 2 2) = some info ∧
      (min ((AABB.mk 0 0 2 2).max_x - (AABB.mk 1 0 2 2).min_x)
          ((AABB.mk 1 0 2 2).max_x - (AABB.mk 0 0 2 2).min_x) <
          min ((AABB.mk 0 0 2 2).max_y - (AABB.mk 1 0 2 2).min_y)
            ((AABB.mk 1 0 2 2).max_y - (AABB.mk 0 0 2 2).min_y) →
        info.normal_x = (if (AABB.mk 0 0 2 2).center_x < (AABB.mk 1 0 2 2).center_x then (-1 : ℚ) else 1) ∧
        info.normal_y = 0 ∧
        info.penetration_x = min ((AABB.mk 0 0 2 2).max_x - (AABB.mk 1 0 2 2).min_x)
          ((AABB.mk 1 0 2 2).max_x - (AABB.mk 0 0 2 2).min_x) * info.normal_x ∧
        info.penetration_y = 0) ∧
      (min ((AABB.mk 0 0 2 2).max_y - (AABB.mk 1 0 2 2).min_y)
          ((AABB.mk 1 0 2 2).max_y - (AABB.mk 0 0 2 2).min_y) ≤
          min ((AABB.mk 0 0 2 2).max_x - (AABB.mk 1 0 2 2).min_x)
            ((AABB.mk 1 0 2 2).max_x - (AABB.mk 0 0 2 2).min_x) →
        info.normal_y = (if (AABB.mk 0 0 2 2).center_y < (AABB.mk 1 0 2 2).center_y then (-1 : ℚ) else 1) ∧
        info.normal_x = 0 ∧
        info.penetration_y = min ((AABB.mk 0 0 2 2).max_y - (AABB.mk 1 0 2 2).min_y)
          ((AABB.mk 1 0 2 2).max_y - (AABB.mk 0 0 2 2).min_y) * info.normal_y ∧
        info.penetration_x = 0) := by
  have h : (AABB.mk 0 0 2 2).intersects (AABB.mk 1 0 2 2) = true := by
    norm_num [AABB.intersects, AABB.min_x, AABB.min_y, AABB.max_x, AABB.max_y]
  exact ⟨h, c2_resolve_min_overlap_axis _ _ h⟩

/-- C6: `aabb_vs_aabb` is true exactly when the boxes' closed extents overlap
on both axes (touching edges count), and the claim's two sample pairs behave
as stated. -/
theorem c6_aabb_overlap_iff :
    (∀ a b : AABB, aabb_vs_aabb a b = true ↔
      (b.min_x ≤ a.max_x ∧ a.min_x ≤ b.max_x ∧ b.min_y ≤ a.max_y ∧ a.min_y ≤ b.max_y)) ∧
    aabb_vs_aabb (AABB.mk 0 0 10 10) (AABB.mk 5 5 10 10) = true ∧
    aabb_vs_aabb (AABB.mk 0 0 10 10) (AABB.mk 20 20 5 5) = false := by
  refine ⟨?_, ?_, ?_⟩
  · intro a b
    simp [aabb_vs_aabb, AABB.intersects, not_or, not_lt, and_assoc]
  · norm_num [aabb_vs_aabb, AABB.intersects, AABB.min_x, AABB.min_y, AABB.max_x, AABB.max_y]
  · norm_num [aabb_vs_aabb, AABB.intersects, AABB.min_x, AABB.min_y, AABB.max_x, AABB.max_y]

/-- C7: for nonzero direction components, `ray_vs_aabb` computes exactly the
spec's slab method (`slabSpec`, over plain rationals): a hit exists iff the
largest per-axis entry is at most the smallest per-axis exit and the exit is
not behind the origin, returning the nearest non-negative distance (the exit
when the origin is inside).  The claim's two sample rays — one of which has a
zero direction component and therefore exercises the IEEE `1/0 = +∞` path —
return hit distance 5 and no hit respectively. -/
theorem c7_ray_vs_aabb_slab (rx ry dx dy : ℚ) (a : AABB)
    (hdx : dx ≠ 0) (hdy : dy ≠ 0) :
    ray_vs_aabb rx ry dx dy a = Option.map FVal.fin (slabSpec rx ry dx dy a) ∧
    ray_vs_aabb 0 0 1 0 (AABB.mk 5 (-1) 2 2) = some (FVal.fin 5) ∧
    ray_vs_aabb 0 0 (-1) 0 (AABB.mk 5 (-1) 2 2) = none := by
  refine ⟨?_, ?_, ?_⟩
  · unfold ray_vs_aabb slabSpec finv
    rw [if_neg hdx, if_neg hdy]
    simp only [FVal.mul_fin, FVal.fmin_fin, FVal.fmax_fin, FVal.lt_fin, mul_one_div,
      decide_eq_true_eq, gt_iff_lt]
    split_ifs <;> rfl
  · norm_num [ray_vs_aabb, finv, FVal.mul, FVal.fmin, FVal.fmax, FVal.lt,
      AABB.min_x, AABB.min_y, AABB.max_x, AABB.max_y]
  · norm_num [ray_vs_aabb, finv, FVal.mul, FVal.fmin, FVal.fmax, FVal.lt,
      AABB.min_x, AABB.min_y, AABB.max_x, AABB.max_y]

/-- Witness for C7 with direction (1,1). -/
theorem c7_ray_vs_aabb_slab_witness :
    ((1 : ℚ) ≠ 0 ∧ (1 : ℚ) ≠ 0) ∧
    (ray_vs_aabb 0 0 1 1 (AABB.mk 5 (-1) 2 2) =
        Option.map FVal.fin (slabSpec 0 0 1 1 (AABB.mk 5 (-1) 2 2)) ∧
      ray_vs_aabb 0 0 1 0 (AABB.mk 5 (-1) 2 2) = some (FVal.fin 5) ∧
      ray_vs_aabb 0 0 (-1) 0 (AABB.mk 5 (-1) 2 2) = none) :=
  ⟨⟨one_ne_zero, one_ne_zero⟩, c7_ray_vs_aabb_slab 0 0 1 1 _ one_ne_zero one_ne_zero⟩

/-- C9: `Vec2::normalize` of the zero vector is the zero vector (the `len >
0.0` guard prevents division by zero), and for every vector of positive length
the result is the vector scaled by the reciprocal of its length. -/
theorem c9_normalize_zero_safe :
    Vec2.normalize Vec2.ZERO = Vec2.ZERO ∧
    ∀ v : Vec2, 0 < v.length → v.normalize = v.mulScalar v.length⁻¹ := by
  constructor
  · have hz : Vec2.ZERO.length = 0 := by
      unfold Vec2.length Vec2.ZERO
      norm_num
    unfold Vec2.normalize
    rw [hz]
    norm_num
  · intro v hv
    unfold Vec2.normalize Vec2.mulScalar
    rw [if_pos hv, div_eq_mul_inv, div_eq_mul_inv]

/-- Witness for C9 at the vector (3,4), whose length is positive. -/
theorem c9_normalize_zero_safe_witness :
    0 < Vec2.length (Vec2.mk 3 4) ∧
    (Vec2.mk 3 4).normalize = (Vec2.mk 3 4).mulScalar ((Vec2.mk 3 4).length)⁻¹ := by
  have h : 0 < Vec2.length (Vec2.mk 3 4) := by
    unfold Vec2.length
    rw [Real.sqrt_pos]
    norm_num
  exact ⟨h, c9_normalize_zero_safe.2 _ h⟩
